import Mathlib

/-!
The database component of pas (`src/server/db_component.cpp`).

A shallow embedding of `DB::InitPreparedStatement`, `DB::IsAColumn`,
`DB::GetRoot`, `DB::IntegerQuery`, `DB::GetTrackCount`, `DB::GetArtistCount`,
`DB::InnerGetTracks`, `DB::GetTracks`, `DB::MultiValuedQuery` and
`DB::PathFromID`, followed by the properties of the catalogue specification
that these functions decide.

The MySQL connector is the environment: a `Store` answers a query text with a
result set or with an `SQLException`, and a `ResultRow` offers the accessors
the code calls (`getString`, `getInt`).  The static array
`track_column_names` is declared in a header that is not part of the sources,
so every function that walks it takes the registry as the parameter `cols`.
-/

namespace pas

/-! ## The environment: connector, logger, protobuf rows -/

deriving instance DecidableEq for Except

/-- The `sql::SQLException` of the connector: `what()`, `getErrorCode()`,
`getSQLState()`. -/
structure SQLException where
  what : String
  errorCode : Int
  sqlState : String
  deriving DecidableEq, Repr

/-- Modelled from the spec: `logger.hpp` is missing; these are the severities
the source names (`FATAL`, `CONVERSATIONAL`, `VERBOSE`, `REDICULOUS`), of which
only `FATAL` "must propagate to the caller". -/
inductive LogLevel where
  | FATAL
  | CONVERSATIONAL
  | VERBOSE
  | REDICULOUS
  deriving DecidableEq, Repr

/-- Modelled from the spec: `logger.hpp` is missing; the value `LOG2` yields
and `throw` raises, "a leveled error" carrying a message, read back with
`Level()`. -/
structure LoggedException where
  msg : String
  level : LogLevel
  deriving DecidableEq, Repr

/-- Modelled from the spec: the macro `LOG2` of the missing `logger.hpp`; the
write to the logging sink is not part of the model, only the exception value
it returns. -/
def LOG2 (msg : String) (level : LogLevel) : LoggedException :=
  { msg := msg, level := level }

/-- One row of a `sql::ResultSet`, as the accessors the code calls on it.
A column that the result does not have is an `SQLException`. -/
structure ResultRow where
  getString : String → Except SQLException String
  getInt : String → Except SQLException Int
  getIntAt : Nat → Except SQLException Int

/-- The open connection.  `createStatement` tells whether
`connection->createStatement()` yields a non-null statement, `executeQuery`
is `stmt->executeQuery(sql)` followed by the rows that `res->next()` walks.
The code only issues `select`s, so the store answers are the same throughout
one call. -/
structure Store where
  createStatement : Bool
  executeQuery : String → Except SQLException (List ResultRow)

/-- Modelled from the spec: the protobuf enum of the row-kind tag, whose
declaration is missing ("a row-kind tag (currently always track/ROW)"). -/
inductive RowKind where
  | ROW
  deriving DecidableEq, Repr

/-- The `google::protobuf::Map<string, string>` of a row, as an association
list with at most one entry per key. -/
abbrev StrMap := List (String × String)

/-- Lookup of a key, `m.find(k)`. -/
def StrMap.find : StrMap → String → Option String
  | [], _ => none
  | (k', v) :: rest, k => if k = k' then some v else StrMap.find rest k

/-- Assignment `m[k] = v`: overwrite the entry of `k` or add one. -/
def StrMap.set : StrMap → String → String → StrMap
  | [], k, v => [(k, v)]
  | (k', v') :: rest, k, v =>
    if k = k' then (k', v) :: rest else (k', v') :: StrMap.set rest k v

/-- Read access `m[k]`: `operator[]` adds an entry with the empty string when
the key has none, and yields the entry's value. -/
def StrMap.index (m : StrMap) (k : String) : StrMap × String :=
  match StrMap.find m k with
  | some v => (m, v)
  | none => (StrMap.set m k "", "")

/-- Modelled from the spec: the protobuf message `Row`, whose declaration is
missing: a row-kind tag (unset in a fresh row) and the column map. -/
structure Row where
  type : Option RowKind
  results : StrMap
  deriving DecidableEq, Repr

/-- Modelled from the spec: the protobuf message `SelectResult`, whose
declaration is missing: "an ordered sequence of rows". -/
abbrev SelectResult := List Row

/-- The path of the translation unit, `__FILE__`. -/
def sourceFile : String := "db_component.cpp"

/-- The function `ReformatSQLException`: the exception it throws, always `FATAL`. -/
def ReformatSQLException (e : SQLException) : LoggedException :=
  let ss := "# ERR: SQLException in " ++ sourceFile
  let ss := ss ++ "(" ++ "ReformatSQLException" ++ ") on line " ++ toString (32 : Nat) ++ "\n"
  let ss := ss ++ "# ERR: " ++ e.what
  let ss := ss ++ " (MySQL error code: " ++ toString e.errorCode
  let ss := ss ++ ", SQLState: " ++ e.sqlState ++ " )" ++ "\n"
  LOG2 ss LogLevel.FATAL

/-- The handler `catch (LoggedException s) { if (s.Level() == FATAL) throw s; }`:
what leaves the function. -/
def catchLogged (s : LoggedException) : Option LoggedException :=
  if s.level = LogLevel.FATAL then some s else none

/-! ## `DB::InitPreparedStatement` -/

/-- The three string members the constructor fills. -/
structure PreparedColumns where
  query_columns : String
  parameter_columns : String
  select_columns : String
  deriving DecidableEq, Repr

/-- The body of the `for` loop of `InitPreparedStatement` at index `i` with
`track_column_names[i] = c`. -/
def InitPreparedStatement.body (i : Nat) (c : String) (s : PreparedColumns) :
    PreparedColumns :=
  let s := if i > 0 then
      { query_columns := s.query_columns ++ ", ",
        parameter_columns := s.parameter_columns ++ ", ",
        select_columns := s.select_columns ++ ", " }
    else s
  { query_columns := s.query_columns ++ c,
    select_columns := s.select_columns ++ c,
    parameter_columns := s.parameter_columns ++ "?" }

/-- The `for` loop of `InitPreparedStatement` from index `i`, over the rest of
the registry. -/
def InitPreparedStatement.loop : Nat → List String → PreparedColumns → PreparedColumns
  | _, [], s => s
  | i, c :: cs, s => InitPreparedStatement.loop (i + 1) cs (InitPreparedStatement.body i c s)

/-- The function `DB::InitPreparedStatement` on the members `s`. -/
def InitPreparedStatement (cols : List String) (s : PreparedColumns) : PreparedColumns :=
  let s := { s with query_columns := "(" }
  let s := { s with parameter_columns := " values (" }
  let s := InitPreparedStatement.loop 0 cols s
  let s := { s with query_columns := s.query_columns ++ ") " }
  let s := { s with parameter_columns := s.parameter_columns ++ ") " }
  { s with select_columns := s.select_columns ++ ", id" }

/-- The members after the constructor `DB::DB()`: default-constructed strings,
then `InitPreparedStatement()`. -/
def DB.init (cols : List String) : PreparedColumns :=
  InitPreparedStatement cols
    { query_columns := "", parameter_columns := "", select_columns := "" }

/-! ## `DB::IsAColumn` -/

/-- The `for` loop of `IsAColumn` over the rest of the registry, with its
`break`. -/
def IsAColumn.loop (c : String) : List String → Bool → Bool
  | [], rv => rv
  | x :: xs, rv => if c = x then true else IsAColumn.loop c xs rv

/-- The function `DB::IsAColumn`. -/
def IsAColumn (cols : List String) (c : String) : Bool :=
  let rv := false
  if c = "id" then true else IsAColumn.loop c cols rv

/-- A registry used in the worked examples. -/
def sampleColumns : List String := ["parent", "title", "artist", "fname", "track"]

/-! ## Scalar queries: `DB::IntegerQuery`, `DB::GetRoot`, the counts -/

/-- The function `DB::IntegerQuery`: the value returned, or the exception thrown.  A null
statement is logged at `FATAL` without a `throw`, and `rv` stays `0`. -/
def IntegerQuery (st : Store) (sql : String) : Except LoggedException Int :=
  let rv : Int := 0
  if !st.createStatement then
    .ok rv
  else
    match st.executeQuery sql with
    | .error e => .error (ReformatSQLException e)
    | .ok [] => .ok rv
    | .ok (r :: _) =>
      match r.getIntAt 1 with
      | .error e => .error (ReformatSQLException e)
      | .ok v => .ok v

/-- The query text `DB::GetRoot` builds, after its default substitution. -/
def GetRoot.sql (nspace : String) : String :=
  let nspace := if nspace.length = 0 then "default" else nspace
  "select me from paths where up = -1 and namespace like " ++ nspace ++ ";"

/-- The function `DB::GetRoot`. -/
def GetRoot (st : Store) (nspace : String) : Except LoggedException Int :=
  IntegerQuery st (GetRoot.sql nspace)

/-- The query text `DB::GetTrackCount` builds. -/
def GetTrackCount.sql (nspace : String) : String :=
  "select count(*) from tracks where namespace like '" ++ nspace ++ "'"

/-- The function `DB::GetTrackCount`. -/
def GetTrackCount (st : Store) (nspace : String) : Except LoggedException Int :=
  IntegerQuery st (GetTrackCount.sql nspace)

/-- The query text `DB::GetArtistCount` builds. -/
def GetArtistCount.sql (nspace : String) : String :=
  "select count(*) from (select distinct artist from tracks where namespace like '"
    ++ nspace ++ "') as foo;"

/-- The function `DB::GetArtistCount`. -/
def GetArtistCount (st : Store) (nspace : String) : Except LoggedException Int :=
  IntegerQuery st (GetArtistCount.sql nspace)

/-! ## `DB::InnerGetTracks` and its callers -/

/-- What a call that fills `results` leaves behind: the rows in `results`,
the query texts sent to the store in order, and the exception that left the
function, if one did. -/
structure Outcome where
  results : SelectResult
  issued : List String
  thrown : Option LoggedException

/-- The inner `for` loop of `InnerGetTracks` over the rest of the registry:
`(*m)[col] = res->getString(col)`.  The map reached so far is kept when
`getString` throws. -/
def InnerGetTracks.columns (r : ResultRow) : List String → StrMap → StrMap × Option SQLException
  | [], m => (m, none)
  | col :: cs, m =>
    match r.getString col with
    | .error e => (m, some e)
    | .ok s => InnerGetTracks.columns r cs (StrMap.set m col s)

/-- The empty-title rule at the end of the `while` body:
`if ((*m)["title"].size() == 0) (*m)["title"] = (*m)["fname"];`. -/
def InnerGetTracks.title (m : StrMap) : StrMap :=
  let (m, t) := StrMap.index m "title"
  if t.length = 0 then
    let (m, f) := StrMap.index m "fname"
    StrMap.set m "title" f
  else m

/-- The body of the `while (res->next())` loop of `InnerGetTracks` for the
result row `r`: the row added to `results` (as far as it got filled) and the
`SQLException` raised on the way, if any.  In `(*m)["id"] = res->getString("id")`
the right-hand side is evaluated first. -/
def InnerGetTracks.row (cols : List String) (r : ResultRow) : Row × Option SQLException :=
  let row : Row := { type := none, results := [] }
  let row := { row with type := some RowKind.ROW }
  match InnerGetTracks.columns r cols row.results with
  | (m, some e) => ({ row with results := m }, some e)
  | (m, none) =>
    match r.getString "id" with
    | .error e => ({ row with results := m }, some e)
    | .ok s =>
      let m := StrMap.set m "id" s
      let m := StrMap.set m "type" "track"
      ({ row with results := InnerGetTracks.title m }, none)

/-- The `while (res->next())` loop of `InnerGetTracks` over the rest of the
result set. -/
def InnerGetTracks.rows (cols : List String) :
    List ResultRow → SelectResult → SelectResult × Option SQLException
  | [], results => (results, none)
  | r :: rs, results =>
    match InnerGetTracks.row cols r with
    | (row, some e) => (results ++ [row], some e)
    | (row, none) => InnerGetTracks.rows cols rs (results ++ [row])

/-- The function `DB::InnerGetTracks`. -/
def InnerGetTracks (st : Store) (cols : List String) (results : SelectResult)
    (sql : String) : Outcome :=
  if !st.createStatement then
    { results := results, issued := [],
      thrown := catchLogged (LOG2 "createStatement() failed" LogLevel.FATAL) }
  else
    match st.executeQuery sql with
    | .error e =>
      { results := results, issued := [sql], thrown := some (ReformatSQLException e) }
    | .ok rs =>
      match InnerGetTracks.rows cols rs results with
      | (results, some e) =>
        { results := results, issued := [sql], thrown := some (ReformatSQLException e) }
      | (results, none) =>
        { results := results, issued := [sql], thrown := none }

/-- The query text `DB::GetTracks` builds, after its default substitution. -/
def GetTracks.sql (select_columns : String) (id : Int) (nspace : String) : String :=
  let nspace := if nspace.length = 0 then "default" else nspace
  let sql := "select " ++ select_columns ++ " from tracks where "
  let sql := sql ++ ("parent = " ++ toString id ++ " ")
  let sql := sql ++ ("and namespace like \"" ++ nspace ++ "\" ")
  sql ++ "order by track;"

/-- The function `DB::GetTracks`. -/
def GetTracks (st : Store) (cols : List String) (results : SelectResult) (id : Int)
    (nspace : String) : Outcome :=
  InnerGetTracks st cols results (GetTracks.sql (DB.init cols).select_columns id nspace)

/-- The query text `DB::MultiValuedQuery` builds once the column passed
`IsAColumn`, after its default substitution. -/
def MultiValuedQuery.sql (select_columns column pattern nspace orderby : String) : String :=
  let nspace := if nspace.length = 0 then "default" else nspace
  let sql := "select " ++ select_columns ++ " from tracks where "
  let sql := sql ++ (column ++ " like \"" ++ pattern ++ "\" and namespace like \"" ++ nspace ++ "\"")
  let sql := sql ++ " order by "
  let sql := sql ++ (if orderby.length = 0 then column else orderby)
  sql ++ ";"

/-- The function `DB::MultiValuedQuery`. -/
def MultiValuedQuery (st : Store) (cols : List String) (column pattern : String)
    (results : SelectResult) (nspace orderby : String) : Outcome :=
  if IsAColumn cols column then
    InnerGetTracks st cols results
      (MultiValuedQuery.sql (DB.init cols).select_columns column pattern nspace orderby)
  else
    { results := results, issued := [], thrown := none }

/-! ## `DB::PathFromID` -/

/-- The first query text of `DB::PathFromID`. -/
def PathFromID.trackSql (id : Nat) (nspace : String) : String :=
  "select parent,title,artist,fname from tracks where id = " ++ toString id
    ++ " and namespace = '" ++ nspace ++ "';"

/-- The query text of one step of the climb of `DB::PathFromID`. -/
def PathFromID.pathSql (up : Int) (nspace : String) : String :=
  "select * from paths where me = " ++ toString up ++ " and namespace = '" ++ nspace ++ "';"

/-- The loop `while (up >= 0) { ... }` of `DB::PathFromID`, run for at most
`fuel` iterations: `none` when the loop is still running after `fuel`
iterations, otherwise the final `rv` or the `SQLException` raised. -/
def PathFromID.climb (st : Store) (nspace : String) :
    Nat → Int → String → Option (Except SQLException String)
  | 0, up, rv => if up ≥ 0 then none else some (.ok rv)
  | fuel + 1, up, rv =>
    if up ≥ 0 then
      match st.executeQuery (PathFromID.pathSql up nspace) with
      | .error e => some (.error e)
      | .ok [] => PathFromID.climb st nspace fuel up rv
      | .ok (r :: _) =>
        match r.getInt "up" with
        | .error e => some (.error e)
        | .ok up' =>
          match r.getString "name" with
          | .error e => some (.error e)
          | .ok name => PathFromID.climb st nspace fuel up' (name ++ "/" ++ rv)
    else some (.ok rv)

/-- What `DB::PathFromID` hands back: the returned string and the values
written through `title` and `artist` (`none`: nothing was written). -/
structure PathResult where
  path : String
  title : Option String
  artist : Option String
  deriving DecidableEq, Repr

/-- The statements of `DB::PathFromID` before the climb: the track query and
the capture of `up`, `title`, `artist` and `rv`.  `up` is an uninitialised
local, so `upInit` is the value it holds when no track row is found. -/
def PathFromID.start (st : Store) (upInit : Int) (id : Nat) (nspace : String) :
    Except SQLException (Int × PathResult) :=
  match st.executeQuery (PathFromID.trackSql id nspace) with
  | .error e => .error e
  | .ok [] => .ok (upInit, { path := "", title := none, artist := none })
  | .ok (r :: _) =>
    match r.getInt "parent" with
    | .error e => .error e
    | .ok up =>
      match r.getString "title" with
      | .error e => .error e
      | .ok t =>
        match r.getString "artist" with
        | .error e => .error e
        | .ok a =>
          match r.getString "fname" with
          | .error e => .error e
          | .ok f => .ok (up, { path := f, title := some t, artist := some a })

/-- The function `DB::PathFromID` with the climb limited to `fuel` iterations: `none` when
the call has not returned by then, otherwise what it returns or throws. -/
def PathFromID (st : Store) (fuel : Nat) (upInit : Int) (id : Nat) (nspace : String) :
    Option (Except LoggedException PathResult) :=
  if !st.createStatement then
    match catchLogged (LOG2 "createStatement() failed" LogLevel.FATAL) with
    | some s => some (.error s)
    | none => some (.ok { path := "", title := none, artist := none })
  else
    match PathFromID.start st upInit id nspace with
    | .error e => some (.error (ReformatSQLException e))
    | .ok (up, res) =>
      match PathFromID.climb st nspace fuel up res.path with
      | none => none
      | some (.error e) => some (.error (ReformatSQLException e))
      | some (.ok rv) => some (.ok { res with path := rv })

/-! ## Vocabulary of the properties -/

/-- The result row `r` has every registered column and the column `id`. -/
def Readable (cols : List String) (r : ResultRow) : Prop :=
  (∀ c ∈ cols, ∃ v, r.getString c = .ok v) ∧ ∃ v, r.getString "id" = .ok v

/-- The folders above a track: `IsChain st nspace up names` says that, in the
store `st`, the folder ids starting at `up` name existing PathNodes of the
namespace whose names are `names`, listed from the containing folder upwards,
and that the last of them has a negative `up` (it is the root). -/
def IsChain (st : Store) (nspace : String) : Int → List String → Prop
  | up, [] => up < 0
  | up, name :: above =>
    0 ≤ up ∧ ∃ r rest up', st.executeQuery (PathFromID.pathSql up nspace) = .ok (r :: rest) ∧
      r.getInt "up" = .ok up' ∧ r.getString "name" = .ok name ∧ IsChain st nspace up' above

/-- The folders above a track run in a cycle: `InCycle st nspace ids` says
that every folder id of the finite list `ids` is non-negative and names an
existing PathNode of the namespace, with a readable `up` and `name`, whose
parent is again in `ids`.  A climb that enters `ids` meets only existing
folders and no root, so it comes back to a folder it has already seen: some
PathNode is its own ancestor. -/
def InCycle (st : Store) (nspace : String) (ids : List Int) : Prop :=
  ∀ u ∈ ids, 0 ≤ u ∧ ∃ r rest up' name,
    st.executeQuery (PathFromID.pathSql u nspace) = .ok (r :: rest) ∧
    r.getInt "up" = .ok up' ∧ r.getString "name" = .ok name ∧ up' ∈ ids

/-! ## Worked data -/

/-- The exception of the connector for a column the result does not have. -/
def invalidColumn (col : String) : SQLException :=
  { what := "Invalid column name: " ++ col, errorCode := 0, sqlState := "S0022" }

/-- A result row with the integer columns `ints` and the string columns
`strs`; an integer column read as a string gives its decimal text. -/
def mkRow (ints : List (String × Int)) (strs : List (String × String)) : ResultRow :=
  { getString := fun c =>
      match strs.lookup c with
      | some v => .ok v
      | none =>
        match ints.lookup c with
        | some i => .ok (toString i)
        | none => .error (invalidColumn c),
    getInt := fun c =>
      match ints.lookup c with
      | some i => .ok i
      | none => .error (invalidColumn c),
    getIntAt := fun n =>
      match ints.get? (n - 1) with
      | some (_, i) => .ok i
      | none => .error (invalidColumn (toString n)) }

/-- A library: track 7 of namespace `default` is `song.mp3` in folder 3
`Album`, inside folder 2 `Artist`, inside the root folder 1 `music`. -/
def libraryStore : Store :=
  { createStatement := true,
    executeQuery := fun sql =>
      if sql = PathFromID.trackSql 7 "default" then
        .ok [mkRow [("parent", 3)] [("title", "Song"), ("artist", "Band"), ("fname", "song.mp3")]]
      else if sql = PathFromID.pathSql 3 "default" then
        .ok [mkRow [("me", 3), ("up", 2)] [("name", "Album"), ("namespace", "default")]]
      else if sql = PathFromID.pathSql 2 "default" then
        .ok [mkRow [("me", 2), ("up", 1)] [("name", "Artist"), ("namespace", "default")]]
      else if sql = PathFromID.pathSql 1 "default" then
        .ok [mkRow [("me", 1), ("up", -1)] [("name", "music"), ("namespace", "default")]]
      else .ok [] }

/-- A library with a dangling parent: track 7 of namespace `default` is in
folder 5, and the paths table has no row at all. -/
def danglingStore : Store :=
  { createStatement := true,
    executeQuery := fun sql =>
      if sql = PathFromID.trackSql 7 "default" then
        .ok [mkRow [("parent", 5)] [("title", "Song"), ("artist", "Band"), ("fname", "song.mp3")]]
      else .ok [] }

/-- A library with a cycle: track 7 of namespace `default` is in folder 3,
whose parent is folder 2, whose parent is folder 3. -/
def cyclicStore : Store :=
  { createStatement := true,
    executeQuery := fun sql =>
      if sql = PathFromID.trackSql 7 "default" then
        .ok [mkRow [("parent", 3)] [("title", "Song"), ("artist", "Band"), ("fname", "song.mp3")]]
      else if sql = PathFromID.pathSql 3 "default" then
        .ok [mkRow [("me", 3), ("up", 2)] [("name", "Album"), ("namespace", "default")]]
      else if sql = PathFromID.pathSql 2 "default" then
        .ok [mkRow [("me", 2), ("up", 3)] [("name", "Artist"), ("namespace", "default")]]
      else .ok [] }

/-- A store with three tracks in namespace `default` and none in the
namespace with the empty name. -/
def countStore : Store :=
  { createStatement := true,
    executeQuery := fun sql =>
      if sql = "select count(*) from tracks where namespace like 'default'" then
        .ok [mkRow [("count(*)", 3)] []]
      else if sql = "select count(*) from tracks where namespace like ''" then
        .ok [mkRow [("count(*)", 0)] []]
      else .ok [] }

/-- A result row of the tracks table with an empty title. -/
def untitledRow : ResultRow :=
  mkRow [("id", 12), ("parent", 3), ("track", 4)]
    [("title", ""), ("artist", "Band"), ("fname", "04 Track.flac")]

/-- A result row of the tracks table with a title. -/
def titledRow : ResultRow :=
  mkRow [("id", 11), ("parent", 3), ("track", 3)]
    [("title", "Song"), ("artist", "Band"), ("fname", "song.mp3")]

/-- A result row that lacks the registered column `fname`. -/
def shortRow : ResultRow :=
  mkRow [("id", 13), ("parent", 3), ("track", 5)] [("title", "Tune"), ("artist", "Band")]

/-- A store that answers every query with the rows `rows`. -/
def constStore (rows : List ResultRow) : Store :=
  { createStatement := true, executeQuery := fun _ => .ok rows }

set_option maxRecDepth 100000

/-! ## Column registry: proofs -/

theorem IsAColumn.loop_false (c : String) (cols : List String) :
    IsAColumn.loop c cols false = true ↔ c ∈ cols := by
  induction cols with
  | nil => simp [IsAColumn.loop]
  | cons x xs ih =>
    by_cases h : c = x
    · simp [IsAColumn.loop, h]
    · simp [IsAColumn.loop, h, ih]

/-- C1: `IsAColumn name` is true exactly when `name` is `"id"` or is one of
the registered column names (whole-string, case-sensitive equality); so it is
true for every registered column and false for every other string but
`"id"`. -/
theorem IsAColumn_iff (cols : List String) (name : String) :
    IsAColumn cols name = true ↔ name = "id" ∨ name ∈ cols := by
  unfold IsAColumn
  by_cases h : name = "id"
  · simp [h]
  · simp [h, IsAColumn.loop_false]

/-! ## Prepared column lists: proofs -/

theorem intercalate_go_append (a b sep : String) (l : List String) :
    String.intercalate.go (a ++ b) sep l = a ++ String.intercalate.go b sep l := by
  induction l generalizing b with
  | nil => simp [String.intercalate.go]
  | cons x xs ih =>
    simp only [String.intercalate.go]
    rw [String.append_assoc, String.append_assoc, ih, String.append_assoc]

theorem InitPreparedStatement.loop_query (cs : List String) (i : Nat) (hi : 0 < i)
    (s : PreparedColumns) :
    (InitPreparedStatement.loop i cs s).query_columns
      = String.intercalate.go s.query_columns ", " cs := by
  induction cs generalizing i s with
  | nil => simp [InitPreparedStatement.loop, String.intercalate.go]
  | cons c cs ih =>
    simp only [InitPreparedStatement.loop, String.intercalate.go]
    rw [ih (i + 1) (Nat.succ_pos i)]
    simp [InitPreparedStatement.body, hi]

theorem InitPreparedStatement.loop_parameter (cs : List String) (i : Nat) (hi : 0 < i)
    (s : PreparedColumns) :
    (InitPreparedStatement.loop i cs s).parameter_columns
      = String.intercalate.go s.parameter_columns ", " (List.replicate cs.length "?") := by
  induction cs generalizing i s with
  | nil => simp [InitPreparedStatement.loop, String.intercalate.go]
  | cons c cs ih =>
    simp only [InitPreparedStatement.loop, List.length_cons, List.replicate_succ,
      String.intercalate.go]
    rw [ih (i + 1) (Nat.succ_pos i)]
    simp [InitPreparedStatement.body, hi]

/-- C9: after `InitPreparedStatement` the insert-column list is `"("`, the
registered names in registry order separated by `", "`, then `") "`, and the
placeholder list is `" values ("`, one `"?"` per registered name separated by
`", "`, then `") "`: both lists have the arity of the registry and the i-th
placeholder stands at the position of the i-th column. -/
theorem InitPreparedStatement_lists (cols : List String) (s : PreparedColumns) :
    (InitPreparedStatement cols s).query_columns
        = "(" ++ String.intercalate ", " cols ++ ") " ∧
    (InitPreparedStatement cols s).parameter_columns
        = " values (" ++ String.intercalate ", " (List.replicate cols.length "?") ++ ") " ∧
    (List.replicate cols.length "?").length = cols.length := by
  refine ⟨?_, ?_, List.length_replicate _ _⟩
  · cases cols with
    | nil => simp [InitPreparedStatement, InitPreparedStatement.loop, String.intercalate]
    | cons c cs =>
      simp only [InitPreparedStatement, InitPreparedStatement.loop, String.intercalate]
      rw [InitPreparedStatement.loop_query cs 1 Nat.one_pos]
      simp [InitPreparedStatement.body, intercalate_go_append]
  · cases cols with
    | nil => simp [InitPreparedStatement, InitPreparedStatement.loop, String.intercalate]
    | cons c cs =>
      simp only [InitPreparedStatement, InitPreparedStatement.loop, String.intercalate,
        List.length_cons, List.replicate_succ]
      rw [InitPreparedStatement.loop_parameter cs 1 Nat.one_pos]
      have h : InitPreparedStatement.body 0 c
          { query_columns := "(", parameter_columns := " values (",
            select_columns := s.select_columns } =
          { query_columns := "(" ++ c, parameter_columns := " values (" ++ "?",
            select_columns := s.select_columns ++ c } := rfl
      rw [h, intercalate_go_append]

/-! ## Query construction: proofs -/

/-- C2: when `IsAColumn column` is false, `MultiValuedQuery` sends no query to
the store, raises nothing, and leaves `results` as it was passed in. -/
theorem MultiValuedQuery_invalid_column (st : Store) (cols : List String)
    (column pattern : String) (results : SelectResult) (nspace orderby : String)
    (h : IsAColumn cols column = false) :
    (MultiValuedQuery st cols column pattern results nspace orderby).issued = [] ∧
    (MultiValuedQuery st cols column pattern results nspace orderby).thrown = none ∧
    (MultiValuedQuery st cols column pattern results nspace orderby).results = results := by
  simp [MultiValuedQuery, h]

theorem MultiValuedQuery_invalid_column_witness :
    IsAColumn sampleColumns "; DROP TABLE tracks" = false ∧
    (MultiValuedQuery (constStore [titledRow]) sampleColumns "; DROP TABLE tracks" "Bach%"
      [] "default" "").issued = [] ∧
    (MultiValuedQuery (constStore [titledRow]) sampleColumns "; DROP TABLE tracks" "Bach%"
      [] "default" "").thrown = none ∧
    (MultiValuedQuery (constStore [titledRow]) sampleColumns "; DROP TABLE tracks" "Bach%"
      [] "default" "").results = [] :=
  ⟨by decide, MultiValuedQuery_invalid_column (constStore [titledRow]) sampleColumns
    "; DROP TABLE tracks" "Bach%" [] "default" "" (by decide)⟩

/-- The operations that substitute: `GetRoot`, `GetTracks` and
`MultiValuedQuery` build the same query text for the empty namespace as for
`"default"`. -/
theorem empty_namespace_substituted (sel column pattern orderby : String) (id : Int) :
    GetRoot.sql "" = GetRoot.sql "default" ∧
    GetTracks.sql sel id "" = GetTracks.sql sel id "default" ∧
    MultiValuedQuery.sql sel column pattern "" orderby
      = MultiValuedQuery.sql sel column pattern "default" orderby := by
  refine ⟨by decide, ?_, ?_⟩
  · have h1 : ("" : String).length = 0 := by decide
    have h2 : ¬ ("default" : String).length = 0 := by decide
    simp only [GetTracks.sql, h1, h2, if_true, if_false]
  · have h1 : ("" : String).length = 0 := by decide
    have h2 : ¬ ("default" : String).length = 0 := by decide
    simp only [MultiValuedQuery.sql, h1, h2, if_true, if_false]

/-- C3: `GetTrackCount`, `GetArtistCount` and `PathFromID` do not substitute
`"default"` for the empty namespace: the query texts differ, and on
`countStore` the count of the empty namespace is 0 while the count of
`"default"` is 3. -/
theorem GetTrackCount_empty_namespace :
    GetTrackCount.sql "" = "select count(*) from tracks where namespace like ''" ∧
    GetTrackCount.sql "default"
      = "select count(*) from tracks where namespace like 'default'" ∧
    GetTrackCount countStore "" = .ok 0 ∧
    GetTrackCount countStore "default" = .ok 3 ∧
    GetArtistCount.sql "" ≠ GetArtistCount.sql "default" ∧
    PathFromID.trackSql 7 "" ≠ PathFromID.trackSql 7 "default" ∧
    PathFromID.pathSql 3 "" ≠ PathFromID.pathSql 3 "default" := by
  refine ⟨by decide, by decide, by decide, by decide, by decide, by decide, by decide⟩

/-- C8: the pattern, the namespace and the order-by text are concatenated
into the query text: a pattern with a quote and an order-by text that is no
registered column arrive in the text sent to the store as they are, and two
patterns, or two namespaces, give two query texts. -/
theorem MultiValuedQuery_concatenates :
    IsAColumn sampleColumns "artist" = true ∧
    IsAColumn sampleColumns "1; drop table tracks" = false ∧
    (MultiValuedQuery (constStore []) sampleColumns "artist" "x\" or \"1\"=\"1" []
        "default" "1; drop table tracks").issued
      = ["select parent, title, artist, fname, track, id from tracks where artist like \"x\" or \"1\"=\"1\" and namespace like \"default\" order by 1; drop table tracks;"] ∧
    (MultiValuedQuery (constStore []) sampleColumns "artist" "Bach%" [] "default" "").issued
      ≠ (MultiValuedQuery (constStore []) sampleColumns "artist" "Brahms%" [] "default" "").issued ∧
    (MultiValuedQuery (constStore []) sampleColumns "artist" "Bach%" [] "default" "").issued
      ≠ (MultiValuedQuery (constStore []) sampleColumns "artist" "Bach%" [] "other" "").issued ∧
    (GetTracks (constStore []) sampleColumns [] 3 "default").issued
      ≠ (GetTracks (constStore []) sampleColumns [] 3 "other").issued := by
  refine ⟨by decide, by decide, by decide, by decide, by decide, by decide⟩

/-! ## Path resolution: proofs -/

theorem join_foldl (acc : String) (l : List String) :
    List.foldl (fun r s => r ++ s) acc l = acc ++ String.join l := by
  induction l generalizing acc with
  | nil => simp [String.join]
  | cons x xs ih =>
    simp only [String.join, List.foldl_cons]
    rw [ih, ih ("" ++ x), String.empty_append, String.append_assoc]

theorem join_snoc (l : List String) (a : String) :
    String.join (l ++ [a]) = String.join l ++ a := by
  simp [String.join, List.foldl_append]

/-- The climb never leaves a folder id that names no PathNode. -/
theorem PathFromID.climb_stuck (st : Store) (nspace : String) (up : Int) (hup : 0 ≤ up)
    (hq : st.executeQuery (PathFromID.pathSql up nspace) = .ok []) (fuel : Nat) (rv : String) :
    PathFromID.climb st nspace fuel up rv = none := by
  induction fuel with
  | zero => simp [PathFromID.climb, hup]
  | succ n ih => simp [PathFromID.climb, hup, hq, ih]

/-- The climb along a chain that reaches the root: with enough iterations it
ends with the names of the chain in front of `rv`. -/
theorem PathFromID.climb_chain (st : Store) (nspace : String) (names : List String) :
    ∀ (up : Int) (fuel : Nat) (rv : String), IsChain st nspace up names →
      names.length ≤ fuel →
      PathFromID.climb st nspace fuel up rv
        = some (.ok (String.join (names.reverse.map (fun n => n ++ "/")) ++ rv)) := by
  induction names with
  | nil =>
    intro up fuel rv h _
    have hneg : ¬ 0 ≤ up := not_le.mpr h
    cases fuel <;> simp [PathFromID.climb, hneg, String.join]
  | cons name above ih =>
    intro up fuel rv h hfuel
    obtain ⟨hup, r, rest, up', hq, hint, hname, habove⟩ := h
    cases fuel with
    | zero => simp at hfuel
    | succ n =>
      have hn : above.length ≤ n := by simpa using hfuel
      simp only [PathFromID.climb, ge_iff_le, hup, if_true, hq, hint, hname]
      rw [ih up' n (name ++ "/" ++ rv) habove hn]
      simp [join_snoc, String.append_assoc]

/-- The climb along a chain of `names.length` folders is still running after
fewer iterations. -/
theorem PathFromID.climb_short (st : Store) (nspace : String) (names : List String) :
    ∀ (up : Int) (fuel : Nat) (rv : String), IsChain st nspace up names →
      fuel < names.length → PathFromID.climb st nspace fuel up rv = none := by
  induction names with
  | nil => intro up fuel rv _ h; simp at h
  | cons name above ih =>
    intro up fuel rv h hfuel
    obtain ⟨hup, r, rest, up', hq, hint, hname, habove⟩ := h
    cases fuel with
    | zero => simp [PathFromID.climb, hup]
    | succ n =>
      have hn : n < above.length := by simpa using hfuel
      simp only [PathFromID.climb, ge_iff_le, hup, if_true, hq, hint, hname]
      exact ih up' n _ habove hn

/-- The function `PathFromID` once the track row is read: the climb from the containing
folder with the file name as the first `rv`. -/
theorem PathFromID_of_track (st : Store) (fuel : Nat) (upInit : Int) (id : Nat)
    (nspace : String) (r : ResultRow) (rest : List ResultRow) (up : Int) (t a f : String)
    (hstmt : st.createStatement = true)
    (htrack : st.executeQuery (PathFromID.trackSql id nspace) = .ok (r :: rest))
    (hparent : r.getInt "parent" = .ok up) (htitle : r.getString "title" = .ok t)
    (hartist : r.getString "artist" = .ok a) (hfname : r.getString "fname" = .ok f) :
    PathFromID st fuel upInit id nspace =
      match PathFromID.climb st nspace fuel up f with
      | none => none
      | some (.error e) => some (.error (ReformatSQLException e))
      | some (.ok rv) => some (.ok { path := rv, title := some t, artist := some a }) := by
  simp only [PathFromID, hstmt, PathFromID.start, htrack, hparent, htitle, hartist, hfname]
  rfl

theorem libraryStore_chain : IsChain libraryStore "default" 3 ["Album", "Artist", "music"] :=
  ⟨by decide, _, _, 2, rfl, rfl, rfl, by decide, _, _, 1, rfl, rfl, rfl,
    by decide, _, _, -1, rfl, rfl, rfl, (by decide : (-1 : Int) < 0)⟩

theorem cyclicStore_climb (fuel : Nat) :
    ∀ rv, PathFromID.climb cyclicStore "default" fuel 3 rv = none ∧
      PathFromID.climb cyclicStore "default" fuel 2 rv = none := by
  induction fuel with
  | zero => intro rv; exact ⟨rfl, rfl⟩
  | succ n ih =>
    intro rv
    have h3 : PathFromID.climb cyclicStore "default" (n + 1) 3 rv
        = PathFromID.climb cyclicStore "default" n 2 ("Album" ++ "/" ++ rv) := rfl
    have h2 : PathFromID.climb cyclicStore "default" (n + 1) 2 rv
        = PathFromID.climb cyclicStore "default" n 3 ("Artist" ++ "/" ++ rv) := rfl
    exact ⟨h3.trans (ih _).2, h2.trans (ih _).1⟩

/-- C4 fails as stated: in `libraryStore` track 7 is `song.mp3` in `Album`,
inside `Artist`, inside the root folder (named `music`, `up = -1`), and
`PathFromID` returns `"music/Artist/Album/song.mp3"`: the root's own name
leads the path, and no number of iterations gives `"Artist/Album/song.mp3"`. -/
theorem PathFromID_root_name_leads :
    IsChain libraryStore "default" 3 ["Album", "Artist", "music"] ∧
    PathFromID libraryStore 3 0 7 "default"
      = some (.ok { path := "music/Artist/Album/song.mp3", title := some "Song",
                    artist := some "Band" }) ∧
    ¬ ∃ fuel res, PathFromID libraryStore fuel 0 7 "default" = some (.ok res) ∧
        res.path = "Artist/Album/song.mp3" := by
  refine ⟨libraryStore_chain, by decide, ?_⟩
  rintro ⟨fuel, res, hres, hpath⟩
  have h := PathFromID_of_track libraryStore fuel 0 7 "default" _ _ 3 "Song" "Band" "song.mp3"
    rfl rfl rfl rfl rfl rfl
  rw [h] at hres
  by_cases hf : 3 ≤ fuel
  · rw [PathFromID.climb_chain libraryStore "default" _ 3 fuel "song.mp3" libraryStore_chain hf]
      at hres
    simp only [Option.some.injEq, Except.ok.injEq] at hres
    rw [← hres] at hpath
    revert hpath
    decide
  · rw [PathFromID.climb_short libraryStore "default" _ 3 fuel "song.mp3" libraryStore_chain
      (by simpa using hf)] at hres
    simp at hres

/-- C4 (amended): when the track row has file name `f` and the folders above
it, from the containing folder up to and including the root, are named
`names`, `PathFromID` returns the names of all these folders, the root's
first, each followed by `"/"`, followed by `f` (and hands back the track's
title and artist), as soon as the climb is given `names.length` iterations. -/
theorem PathFromID_path (st : Store) (fuel : Nat) (upInit : Int) (id : Nat)
    (nspace : String) (r : ResultRow) (rest : List ResultRow) (up : Int) (t a f : String)
    (names : List String)
    (hstmt : st.createStatement = true)
    (htrack : st.executeQuery (PathFromID.trackSql id nspace) = .ok (r :: rest))
    (hparent : r.getInt "parent" = .ok up) (htitle : r.getString "title" = .ok t)
    (hartist : r.getString "artist" = .ok a) (hfname : r.getString "fname" = .ok f)
    (hchain : IsChain st nspace up names) (hfuel : names.length ≤ fuel) :
    PathFromID st fuel upInit id nspace
      = some (.ok { path := String.join (names.reverse.map (fun n => n ++ "/")) ++ f,
                    title := some t, artist := some a }) := by
  rw [PathFromID_of_track st fuel upInit id nspace r rest up t a f hstmt htrack hparent htitle
    hartist hfname, PathFromID.climb_chain st nspace names up fuel f hchain hfuel]

theorem PathFromID_path_witness :
    PathFromID libraryStore 5 0 7 "default"
      = some (.ok { path := String.join (["Album", "Artist", "music"].reverse.map
                      (fun n => n ++ "/")) ++ "song.mp3",
                    title := some "Song", artist := some "Band" }) :=
  PathFromID_path libraryStore 5 0 7 "default" _ _ 3 "Song" "Band" "song.mp3"
    ["Album", "Artist", "music"] rfl rfl rfl rfl rfl rfl libraryStore_chain (by decide)

/-- C5: in `danglingStore` track 7 is in folder 5 and no PathNode has
`me = 5`; the climb asks for folder 5 again and again, and `PathFromID` has
not returned after any number of iterations. -/
theorem PathFromID_dangling_parent :
    (∃ r rest, danglingStore.executeQuery (PathFromID.trackSql 7 "default") = .ok (r :: rest) ∧
      r.getInt "parent" = .ok 5) ∧
    (∃ rows, danglingStore.executeQuery (PathFromID.pathSql 5 "default") = .ok rows ∧
      rows.length = 0) ∧
    ¬ ∃ fuel, (PathFromID danglingStore fuel 0 7 "default").isSome = true := by
  refine ⟨⟨_, _, rfl, rfl⟩, ⟨[], rfl, rfl⟩, ?_⟩
  rintro ⟨fuel, h⟩
  rw [PathFromID_of_track danglingStore fuel 0 7 "default" _ _ 5 "Song" "Band" "song.mp3"
    rfl rfl rfl rfl rfl rfl,
    PathFromID.climb_stuck danglingStore "default" 5 (by decide) rfl fuel "song.mp3"] at h
  simp at h

/-- C6 fails as stated: in `cyclicStore` the folder of track 7 is its own
ancestor (3 → 2 → 3), and `PathFromID` neither returns nor raises a fault
after any number of iterations of the climb. -/
theorem PathFromID_cycle_runs_on :
    ¬ ∃ fuel, (PathFromID cyclicStore fuel 0 7 "default").isSome = true := by
  rintro ⟨fuel, h⟩
  rw [PathFromID_of_track cyclicStore fuel 0 7 "default" _ _ 3 "Song" "Band" "song.mp3"
    rfl rfl rfl rfl rfl rfl, (cyclicStore_climb fuel "song.mp3").1] at h
  simp at h

/-- The climb from a folder of a cycle is still running after any number of
iterations. -/
theorem PathFromID.climb_never (st : Store) (nspace : String) (ids : List Int)
    (hcyc : InCycle st nspace ids) (fuel : Nat) :
    ∀ (up : Int) (rv : String), up ∈ ids → PathFromID.climb st nspace fuel up rv = none := by
  induction fuel with
  | zero =>
    intro up rv hup
    simp [PathFromID.climb, (hcyc up hup).1]
  | succ n ih =>
    intro up rv hup
    obtain ⟨hpos, r, rest, up', name, hq, hint, hname, hmem⟩ := hcyc up hup
    simp only [PathFromID.climb, ge_iff_le, hpos, if_true, hq, hint, hname]
    exact ih up' _ hmem

/-- C6 (amended): when the stored parent chain of the track's containing
folder contains a cycle (the folders reached from it through the `up`
pointers all exist and stay inside a finite set `ids`, so none of them is a
root), `PathFromID` has no depth bound and reports no data-integrity fault:
whatever number of iterations the climb is given, the call has neither
returned a path nor raised an exception. -/
theorem PathFromID_cycle_never_returns (st : Store) (upInit : Int) (id : Nat)
    (nspace : String) (r : ResultRow) (rest : List ResultRow) (up : Int) (t a f : String)
    (ids : List Int)
    (hstmt : st.createStatement = true)
    (htrack : st.executeQuery (PathFromID.trackSql id nspace) = .ok (r :: rest))
    (hparent : r.getInt "parent" = .ok up) (htitle : r.getString "title" = .ok t)
    (hartist : r.getString "artist" = .ok a) (hfname : r.getString "fname" = .ok f)
    (hcyc : InCycle st nspace ids) (hup : up ∈ ids) :
    ∀ fuel, PathFromID st fuel upInit id nspace = none := by
  intro fuel
  rw [PathFromID_of_track st fuel upInit id nspace r rest up t a f hstmt htrack hparent
    htitle hartist hfname, PathFromID.climb_never st nspace ids hcyc fuel up f hup]

theorem cyclicStore_cycle : InCycle cyclicStore "default" [3, 2] := by
  intro u hu
  simp only [List.mem_cons, List.mem_singleton, List.not_mem_nil, or_false] at hu
  rcases hu with h | h <;> subst h
  · exact ⟨by decide, _, _, 2, "Album", rfl, rfl, rfl, by decide⟩
  · exact ⟨by decide, _, _, 3, "Artist", rfl, rfl, rfl, by decide⟩

theorem PathFromID_cycle_never_returns_witness :
    InCycle cyclicStore "default" [3, 2] ∧
    ∀ fuel, PathFromID cyclicStore fuel 0 7 "default" = none :=
  ⟨cyclicStore_cycle,
   PathFromID_cycle_never_returns cyclicStore 0 7 "default" _ _ 3 "Song" "Band" "song.mp3"
    [3, 2] rfl rfl rfl rfl rfl rfl cyclicStore_cycle (by decide)⟩

/-- The other side of the cycle case: when the folders above the track form a
finite chain that ends at a root, `PathFromID` returns a path once the climb
is given as many iterations as the chain has folders, and not before. -/
theorem PathFromID_chain_iterations (st : Store) (upInit : Int) (id : Nat)
    (nspace : String) (r : ResultRow) (rest : List ResultRow) (up : Int) (t a f : String)
    (names : List String)
    (hstmt : st.createStatement = true)
    (htrack : st.executeQuery (PathFromID.trackSql id nspace) = .ok (r :: rest))
    (hparent : r.getInt "parent" = .ok up) (htitle : r.getString "title" = .ok t)
    (hartist : r.getString "artist" = .ok a) (hfname : r.getString "fname" = .ok f)
    (hchain : IsChain st nspace up names) :
    (∀ fuel, names.length ≤ fuel →
      ∃ res, PathFromID st fuel upInit id nspace = some (.ok res)) ∧
    (∀ fuel, fuel < names.length → PathFromID st fuel upInit id nspace = none) := by
  constructor
  · intro fuel hfuel
    rw [PathFromID_of_track st fuel upInit id nspace r rest up t a f hstmt htrack hparent
      htitle hartist hfname, PathFromID.climb_chain st nspace names up fuel f hchain hfuel]
    exact ⟨_, rfl⟩
  · intro fuel hfuel
    rw [PathFromID_of_track st fuel upInit id nspace r rest up t a f hstmt htrack hparent
      htitle hartist hfname, PathFromID.climb_short st nspace names up fuel f hchain hfuel]

/-! ## Result marshalling: proofs -/

theorem length_eq_zero_iff (s : String) : s.length = 0 ↔ s = "" := by
  constructor
  · intro h
    apply String.ext
    have h' : s.data.length = 0 := h
    exact List.length_eq_zero.1 h'
  · rintro rfl
    rfl

theorem StrMap.find_set (m : StrMap) (k v k' : String) :
    StrMap.find (StrMap.set m k v) k' = if k' = k then some v else StrMap.find m k' := by
  induction m with
  | nil => simp [StrMap.set, StrMap.find]
  | cons p rest ih =>
    obtain ⟨pk, pv⟩ := p
    by_cases h : k = pk
    · subst h
      by_cases h' : k' = k <;> simp [StrMap.set, StrMap.find, h']
    · by_cases h' : k' = pk
      · subst h'
        have hne : ¬ k' = k := fun e => h e.symm
        simp [StrMap.set, StrMap.find, h, hne]
      · simp [StrMap.set, StrMap.find, h, h', ih]

/-- The empty-title rule keeps every entry but the one of `title`. -/
theorem InnerGetTracks.title_keeps (m : StrMap) (k v : String)
    (hk : StrMap.find m k = some v) (hne : k ≠ "title") :
    StrMap.find (InnerGetTracks.title m) k = some v := by
  unfold InnerGetTracks.title StrMap.index
  cases ht : StrMap.find m "title" with
  | some t =>
    simp only []
    split
    · cases hf : StrMap.find m "fname" with
      | some f => simp [StrMap.find_set, hne, hk]
      | none =>
        have hkf : k ≠ "fname" := by
          rintro rfl
          rw [hf] at hk
          cases hk
        simp [StrMap.find_set, hne, hkf, hk]
    · exact hk
  | none =>
    have hm : StrMap.find (StrMap.set m "title" "") k = some v := by
      simp [StrMap.find_set, hne, hk]
    simp only []
    split
    · cases hf : StrMap.find (StrMap.set m "title" "") "fname" with
      | some f => simp [StrMap.find_set, hne, hk]
      | none =>
        have hkf : k ≠ "fname" := by
          rintro rfl
          rw [hf] at hm
          cases hm
        simp [StrMap.find_set, hne, hkf, hk]
    · exact hm

/-- The empty-title rule on a map that has both `title` and `fname`. -/
theorem InnerGetTracks.title_rule (m : StrMap) (t f : String)
    (ht : StrMap.find m "title" = some t) (hf : StrMap.find m "fname" = some f) :
    StrMap.find (InnerGetTracks.title m) "title" = some (if t = "" then f else t) := by
  unfold InnerGetTracks.title StrMap.index
  simp only [ht, hf]
  by_cases h : t = ""
  · subst h
    simp [StrMap.find_set]
  · have h' : ¬ t.length = 0 := fun e => h ((length_eq_zero_iff t).1 e)
    simp [h, h', ht]

/-- The empty-title rule on a map whose `title` is empty: afterwards `title`
and `fname` hold the same value. -/
theorem InnerGetTracks.title_empty (m : StrMap) (ht : StrMap.find m "title" = some "") :
    ∃ f, StrMap.find (InnerGetTracks.title m) "fname" = some f ∧
      StrMap.find (InnerGetTracks.title m) "title" = some f := by
  unfold InnerGetTracks.title StrMap.index
  have h0 : ("" : String).length = 0 := rfl
  have hne : ¬ ("fname" : String) = "title" := by decide
  simp only [ht, h0, if_true]
  cases hf : StrMap.find m "fname" with
  | some f => exact ⟨f, by simp [StrMap.find_set, hne, hf], by simp [StrMap.find_set]⟩
  | none => exact ⟨"", by simp [StrMap.find_set, hne], by simp [StrMap.find_set]⟩

/-- The empty-title rule leaves a non-empty title alone. -/
theorem InnerGetTracks.title_nonempty (m : StrMap) (t : String)
    (ht : StrMap.find m "title" = some t) (hne : t ≠ "") :
    StrMap.find (InnerGetTracks.title m) "title" = some t := by
  unfold InnerGetTracks.title StrMap.index
  have h' : ¬ t.length = 0 := fun e => hne ((length_eq_zero_iff t).1 e)
  simp [ht, h']

/-- The column loop on a row that has all the columns `cs`: no exception, and
the map holds the row's value at each of them and is unchanged elsewhere. -/
theorem InnerGetTracks.columns_ok (r : ResultRow) (cs : List String) :
    ∀ m : StrMap, (∀ c ∈ cs, ∃ v, r.getString c = .ok v) →
      ∃ m', InnerGetTracks.columns r cs m = (m', none) ∧
        (∀ c ∈ cs, ∀ v, r.getString c = .ok v → StrMap.find m' c = some v) ∧
        (∀ k, k ∉ cs → StrMap.find m' k = StrMap.find m k) := by
  induction cs with
  | nil => intro m _; exact ⟨m, rfl, by simp, by simp⟩
  | cons c cs ih =>
    intro m h
    obtain ⟨v, hv⟩ := h c (List.mem_cons_self c cs)
    obtain ⟨m', hm', hin, hout⟩ := ih (StrMap.set m c v)
      (fun c' hc' => h c' (List.mem_cons_of_mem c hc'))
    refine ⟨m', by simp [InnerGetTracks.columns, hv, hm'], ?_, ?_⟩
    · intro c' hc' v' hv'
      by_cases hmem : c' ∈ cs
      · exact hin c' hmem v' hv'
      · have hc : c' = c := by
          rcases List.mem_cons.1 hc' with h1 | h1
          · exact h1
          · exact absurd h1 hmem
        subst hc
        rw [hout c' hmem, StrMap.find_set]
        rw [hv] at hv'
        cases hv'
        simp
    · intro k hk
      have hk1 : k ≠ c := fun e => hk (e ▸ List.mem_cons_self c cs)
      have hk2 : k ∉ cs := fun e => hk (List.mem_cons_of_mem c e)
      rw [hout k hk2, StrMap.find_set]
      simp [hk1]

/-- The column loop on a row that lacks one of the columns `cs`: an
exception. -/
theorem InnerGetTracks.columns_err (r : ResultRow) (cs : List String) :
    ∀ m : StrMap, (∃ c ∈ cs, ∃ e, r.getString c = .error e) →
      ∃ e, (InnerGetTracks.columns r cs m).2 = some e := by
  induction cs with
  | nil => intro m h; obtain ⟨c, hc, _⟩ := h; simp at hc
  | cons c cs ih =>
    intro m h
    cases hv : r.getString c with
    | error e => exact ⟨e, by simp [InnerGetTracks.columns, hv]⟩
    | ok v =>
      obtain ⟨c', hc', e, he⟩ := h
      have hmem : c' ∈ cs := by
        rcases List.mem_cons.1 hc' with h1 | h1
        · subst h1
          rw [hv] at he
          cases he
        · exact h1
      obtain ⟨e', he'⟩ := ih (StrMap.set m c v) ⟨c', hmem, e, he⟩
      exact ⟨e', by simp [InnerGetTracks.columns, hv, he']⟩

/-- The loop body on a readable row: no exception, the row is tagged `ROW`,
and before the empty-title rule the map holds `type`, `id` and the row's value
at every registered column. -/
theorem InnerGetTracks.row_ok (cols : List String) (r : ResultRow) (h : Readable cols r) :
    ∃ m, InnerGetTracks.row cols r
        = ({ type := some RowKind.ROW, results := InnerGetTracks.title m }, none) ∧
      StrMap.find m "type" = some "track" ∧
      (∀ v, r.getString "id" = .ok v → StrMap.find m "id" = some v) ∧
      (∀ c ∈ cols, c ≠ "type" → ∀ v, r.getString c = .ok v → StrMap.find m c = some v) := by
  obtain ⟨hcols, s, hs⟩ := h
  obtain ⟨m1, hm1, hin, _⟩ := InnerGetTracks.columns_ok r cols [] hcols
  refine ⟨StrMap.set (StrMap.set m1 "id" s) "type" "track", ?_, ?_, ?_, ?_⟩
  · simp [InnerGetTracks.row, hm1, hs]
  · simp [StrMap.find_set]
  · intro v hv
    rw [hs] at hv
    cases hv
    simp [StrMap.find_set]
  · intro c hc hne v hv
    simp only [StrMap.find_set, hne, if_false]
    by_cases hid : c = "id"
    · subst hid
      rw [hs] at hv
      cases hv
      simp
    · simp [hid, hin c hc v hv]

/-- The loop body on a row that lacks a registered column: an exception. -/
theorem InnerGetTracks.row_err (cols : List String) (r : ResultRow)
    (h : ∃ c ∈ cols, ∃ e, r.getString c = .error e) :
    ∃ e, (InnerGetTracks.row cols r).2 = some e := by
  obtain ⟨e, he⟩ := InnerGetTracks.columns_err r cols [] h
  cases hc : InnerGetTracks.columns r cols [] with
  | mk m o =>
    rw [hc] at he
    simp only at he
    subst he
    exact ⟨e, by simp [InnerGetTracks.row, hc]⟩

/-- The row loop appends to `results`, in order, the row made from each
result row it reaches, and it reaches every result row that has no failing
row before it. -/
theorem InnerGetTracks.rows_added (cols : List String) (rs : List ResultRow) :
    ∀ results : SelectResult, ∃ added : List Row,
      (InnerGetTracks.rows cols rs results).1 = results ++ added ∧
      added.length ≤ rs.length ∧
      ((InnerGetTracks.rows cols rs results).2 = none → added.length = rs.length) ∧
      (∀ (i : Nat) (r : ResultRow) (row : Row), rs[i]? = some r → added[i]? = some row →
        row = (InnerGetTracks.row cols r).1) ∧
      (∀ i : Nat, i < rs.length →
        (∀ r ∈ rs.take i, (InnerGetTracks.row cols r).2 = none) → i < added.length) := by
  induction rs with
  | nil => intro results; exact ⟨[], by simp [InnerGetTracks.rows]⟩
  | cons r rs ih =>
    intro results
    cases hr : InnerGetTracks.row cols r with
    | mk row0 o =>
      cases o with
      | some e =>
        refine ⟨[row0], by simp [InnerGetTracks.rows, hr], by simp,
          by simp [InnerGetTracks.rows, hr], ?_, ?_⟩
        · intro i r' row h1 h2
          cases i with
          | zero =>
            simp only [List.getElem?_cons_zero, Option.some.injEq] at h1 h2
            subst h1 h2
            rw [hr]
          | succ j => simp at h2
        · intro i _ hall
          cases i with
          | zero => simp
          | succ j =>
            have hbad := hall r (by simp [List.take_succ_cons])
            rw [hr] at hbad
            cases hbad
      | none =>
        obtain ⟨added, h1, h2, h3, h4, h5⟩ := ih (results ++ [row0])
        refine ⟨row0 :: added, by simp [InnerGetTracks.rows, hr, h1], by simpa using h2,
          ?_, ?_, ?_⟩
        · intro hn
          have hn' : (InnerGetTracks.rows cols rs (results ++ [row0])).2 = none := by
            simpa [InnerGetTracks.rows, hr] using hn
          simp [h3 hn']
        · intro i r' row g1 g2
          cases i with
          | zero =>
            simp only [List.getElem?_cons_zero, Option.some.injEq] at g1 g2
            subst g1 g2
            rw [hr]
          | succ j =>
            simp only [List.getElem?_cons_succ] at g1 g2
            exact h4 j r' row g1 g2
        · intro i hi hall
          cases i with
          | zero => simp
          | succ j =>
            have hj : j < rs.length := by simpa using hi
            have := h5 j hj (fun r' hr' => hall r' (by simp [List.take_succ_cons, hr']))
            simpa using this

/-- The row loop on a result set of readable rows raises nothing. -/
theorem InnerGetTracks.rows_ok (cols : List String) (rs : List ResultRow) :
    ∀ results : SelectResult, (∀ r ∈ rs, Readable cols r) →
      (InnerGetTracks.rows cols rs results).2 = none := by
  induction rs with
  | nil => intro results _; rfl
  | cons r rs ih =>
    intro results h
    obtain ⟨m, hm, _⟩ := InnerGetTracks.row_ok cols r (h r (List.mem_cons_self r rs))
    simp only [InnerGetTracks.rows, hm]
    exact ih _ (fun r' hr' => h r' (List.mem_cons_of_mem r hr'))

/-- The row loop on a result set with a row that lacks a registered column
raises an exception. -/
theorem InnerGetTracks.rows_err (cols : List String) (rs : List ResultRow) :
    ∀ results : SelectResult, (∃ r ∈ rs, ∃ c ∈ cols, ∃ e, r.getString c = .error e) →
      ∃ e, (InnerGetTracks.rows cols rs results).2 = some e := by
  induction rs with
  | nil => intro results h; obtain ⟨r, hr, _⟩ := h; simp at hr
  | cons r rs ih =>
    intro results h
    cases hrow : InnerGetTracks.row cols r with
    | mk row0 o =>
      cases o with
      | some e => exact ⟨e, by simp [InnerGetTracks.rows, hrow]⟩
      | none =>
        obtain ⟨r', hr', hbad⟩ := h
        have hmem : r' ∈ rs := by
          rcases List.mem_cons.1 hr' with h1 | h1
          · subst h1
            obtain ⟨e, he⟩ := InnerGetTracks.row_err cols r' hbad
            rw [hrow] at he
            cases he
          · exact h1
        obtain ⟨e, he⟩ := ih (results ++ [row0]) ⟨r', hmem, hbad⟩
        exact ⟨e, by simp [InnerGetTracks.rows, hrow, he]⟩

/-- The function `InnerGetTracks` on a store that hands out a statement and answers the
query with `rs`: the outcome in terms of the row loop. -/
theorem InnerGetTracks_of_rows (st : Store) (cols : List String) (results : SelectResult)
    (sql : String) (rs : List ResultRow) (hstmt : st.createStatement = true)
    (hq : st.executeQuery sql = .ok rs) :
    (InnerGetTracks st cols results sql).results = (InnerGetTracks.rows cols rs results).1 ∧
    (InnerGetTracks st cols results sql).issued = [sql] ∧
    (InnerGetTracks st cols results sql).thrown
      = (InnerGetTracks.rows cols rs results).2.map ReformatSQLException := by
  cases h : InnerGetTracks.rows cols rs results with
  | mk out o =>
    cases o <;> simp [InnerGetTracks, hstmt, hq, h]

/-- C7: `InnerGetTracks` appends one Row for every result row that has all
its columns and no failing row before it, and in that Row `title` is the
result row's `fname` when the stored title is the empty string and the stored
title otherwise, while `fname` is the stored `fname` in both cases. -/
theorem InnerGetTracks_title_fallback (st : Store) (cols : List String)
    (results : SelectResult) (sql : String) (rs : List ResultRow)
    (hstmt : st.createStatement = true) (hq : st.executeQuery sql = .ok rs)
    (ht : "title" ∈ cols) (hf : "fname" ∈ cols) :
    ∃ added : List Row,
      (InnerGetTracks st cols results sql).results = results ++ added ∧
      added.length ≤ rs.length ∧
      ∀ (i : Nat) (r : ResultRow) (t f : String),
        rs[i]? = some r → (∀ r' ∈ rs.take (i + 1), Readable cols r') →
        r.getString "title" = .ok t → r.getString "fname" = .ok f →
        ∃ row : Row, added[i]? = some row ∧
          (t = "" → StrMap.find row.results "title" = some f) ∧
          (t ≠ "" → StrMap.find row.results "title" = some t) ∧
          StrMap.find row.results "fname" = some f := by
  obtain ⟨added, h1, h2, _, h4, h5⟩ := InnerGetTracks.rows_added cols rs results
  refine ⟨added, by rw [(InnerGetTracks_of_rows st cols results sql rs hstmt hq).1, h1], h2, ?_⟩
  intro i r t f hr hread htitle hfname
  have hi : i < rs.length := by
    by_contra hcon
    rw [List.getElem?_eq_none (not_lt.1 hcon)] at hr
    cases hr
  have hlen : i < added.length := by
    apply h5 i hi
    intro r' hr'
    have hmem : r' ∈ rs.take (i + 1) :=
      (List.take_subset_take_left rs (Nat.le_succ i)) hr'
    obtain ⟨m, hm, _⟩ := InnerGetTracks.row_ok cols r' (hread r' hmem)
    rw [hm]
  have hrow : added[i]? = some (added.get ⟨i, hlen⟩) := by
    simp [List.getElem?_eq_getElem hlen]
  have hrin : r ∈ rs.take (i + 1) := by
    apply List.getElem?_mem (n := i)
    rw [List.getElem?_take_of_lt (Nat.lt_succ_self i)]
    exact hr
  obtain ⟨m, hm, _, _, hcol⟩ := InnerGetTracks.row_ok cols r (hread r hrin)
  have hres : (added.get ⟨i, hlen⟩).results = InnerGetTracks.title m := by
    rw [h4 i r _ hr hrow, hm]
  have hmt : StrMap.find m "title" = some t := hcol "title" ht (by decide) t htitle
  have hmf : StrMap.find m "fname" = some f := hcol "fname" hf (by decide) f hfname
  refine ⟨added.get ⟨i, hlen⟩, hrow, ?_, ?_, ?_⟩
  · intro he
    rw [hres, InnerGetTracks.title_rule m t f hmt hmf]
    simp [he]
  · intro hne
    rw [hres]
    exact InnerGetTracks.title_nonempty m t hmt hne
  · rw [hres]
    exact InnerGetTracks.title_keeps m "fname" f hmf (by decide)

theorem untitledRow_readable : Readable sampleColumns untitledRow :=
  ⟨by
    intro c hc
    simp only [sampleColumns, List.mem_cons, List.mem_singleton, List.not_mem_nil,
      or_false] at hc
    rcases hc with h | h | h | h | h <;> subst h <;> exact ⟨_, rfl⟩,
   ⟨_, rfl⟩⟩

theorem titledRow_readable : Readable sampleColumns titledRow :=
  ⟨by
    intro c hc
    simp only [sampleColumns, List.mem_cons, List.mem_singleton, List.not_mem_nil,
      or_false] at hc
    rcases hc with h | h | h | h | h <;> subst h <;> exact ⟨_, rfl⟩,
   ⟨_, rfl⟩⟩

theorem worked_rows_readable : ∀ r ∈ [untitledRow, titledRow], Readable sampleColumns r := by
  intro r hr
  simp only [List.mem_cons, List.mem_singleton, List.not_mem_nil, or_false] at hr
  rcases hr with h | h <;> subst h
  · exact untitledRow_readable
  · exact titledRow_readable

theorem InnerGetTracks_title_fallback_witness :
    ∃ added : List Row,
      (InnerGetTracks (constStore [untitledRow, titledRow]) sampleColumns [] "q").results
        = [] ++ added ∧
      added.length ≤ [untitledRow, titledRow].length ∧
      (∃ row : Row, added[0]? = some row ∧
        StrMap.find row.results "title" = some "04 Track.flac" ∧
        StrMap.find row.results "fname" = some "04 Track.flac") ∧
      (∃ row : Row, added[1]? = some row ∧
        StrMap.find row.results "title" = some "Song" ∧
        StrMap.find row.results "fname" = some "song.mp3") := by
  obtain ⟨added, h1, h2, h3⟩ :=
    InnerGetTracks_title_fallback (constStore [untitledRow, titledRow]) sampleColumns [] "q"
      [untitledRow, titledRow] rfl rfl (by decide) (by decide)
  refine ⟨added, h1, h2, ?_, ?_⟩
  · obtain ⟨row, g1, g2, _, g4⟩ := h3 0 untitledRow "" "04 Track.flac" rfl
      (fun r hr => worked_rows_readable r (List.mem_of_mem_take hr)) rfl rfl
    exact ⟨row, g1, g2 rfl, g4⟩
  · obtain ⟨row, g1, _, g3, g4⟩ := h3 1 titledRow "Song" "song.mp3" rfl
      (fun r hr => worked_rows_readable r (List.mem_of_mem_take hr)) rfl rfl
    exact ⟨row, g1, g3 (by decide), g4⟩

/-- The marshalled rows of the two worked result rows: the untitled track is
shown under its file name. -/
theorem InnerGetTracks_worked_rows :
    (InnerGetTracks (constStore [untitledRow, titledRow]) sampleColumns [] "q").results
      = [{ type := some RowKind.ROW,
           results := [("parent", "3"), ("title", "04 Track.flac"), ("artist", "Band"),
             ("fname", "04 Track.flac"), ("track", "4"), ("id", "12"), ("type", "track")] },
         { type := some RowKind.ROW,
           results := [("parent", "3"), ("title", "Song"), ("artist", "Band"),
             ("fname", "song.mp3"), ("track", "3"), ("id", "11"), ("type", "track")] }] := by
  decide

/-- C10: when every row of the result set has all the registered columns and
`id`, `InnerGetTracks` raises nothing and appends exactly one Row per result
row, in order; each is tagged `ROW` with `type` = `"track"`, maps `id` to the
result row's id and every registered column to the result row's value, with
`title` alone treated otherwise: a stored title that is empty is replaced by
the Row's `fname` entry.  (The entry `type` is the tag, also when the registry
has a column of that name.)  When some result row lacks a registered column,
a `FATAL` exception leaves the function. -/
theorem InnerGetTracks_rows (st : Store) (cols : List String) (results : SelectResult)
    (sql : String) (rs : List ResultRow)
    (hstmt : st.createStatement = true) (hq : st.executeQuery sql = .ok rs) :
    ((∀ r ∈ rs, Readable cols r) →
      ∃ added : List Row,
        (InnerGetTracks st cols results sql).results = results ++ added ∧
        (InnerGetTracks st cols results sql).thrown = none ∧
        added.length = rs.length ∧
        ∀ (i : Nat) (r : ResultRow) (row : Row), rs[i]? = some r → added[i]? = some row →
          row.type = some RowKind.ROW ∧
          StrMap.find row.results "type" = some "track" ∧
          (∀ v, r.getString "id" = .ok v → StrMap.find row.results "id" = some v) ∧
          ∀ c ∈ cols, c ≠ "type" → ∀ v, r.getString c = .ok v →
            ((c ≠ "title" ∨ v ≠ "") → StrMap.find row.results c = some v) ∧
            (c = "title" → v = "" →
              ∃ f, StrMap.find row.results "fname" = some f ∧
                StrMap.find row.results "title" = some f)) ∧
    ((∃ r ∈ rs, ∃ c ∈ cols, ∃ e, r.getString c = .error e) →
      ∃ ex, (InnerGetTracks st cols results sql).thrown = some ex ∧
        ex.level = LogLevel.FATAL) := by
  obtain ⟨hres, _, hthrown⟩ := InnerGetTracks_of_rows st cols results sql rs hstmt hq
  constructor
  · intro hread
    obtain ⟨added, h1, _, h3, h4, _⟩ := InnerGetTracks.rows_added cols rs results
    have hnone := InnerGetTracks.rows_ok cols rs results hread
    refine ⟨added, by rw [hres, h1], by rw [hthrown, hnone]; rfl, h3 hnone, ?_⟩
    intro i r row hr hrow
    have hmem : r ∈ rs := List.getElem?_mem hr
    obtain ⟨m, hm, htype, hid, hcol⟩ := InnerGetTracks.row_ok cols r (hread r hmem)
    have hrow' : row = { type := some RowKind.ROW, results := InnerGetTracks.title m } := by
      rw [h4 i r row hr hrow, hm]
    subst hrow'
    refine ⟨rfl, InnerGetTracks.title_keeps m "type" "track" htype (by decide), ?_, ?_⟩
    · intro v hv
      exact InnerGetTracks.title_keeps m "id" v (hid v hv) (by decide)
    · intro c hc hne v hv
      have hmc := hcol c hc hne v hv
      constructor
      · intro hor
        by_cases hct : c = "title"
        · subst hct
          rcases hor with h | h
          · exact absurd rfl h
          · exact InnerGetTracks.title_nonempty m v hmc h
        · exact InnerGetTracks.title_keeps m c v hmc hct
      · intro hct hv0
        subst hct hv0
        exact InnerGetTracks.title_empty m hmc
  · intro hbad
    obtain ⟨e, he⟩ := InnerGetTracks.rows_err cols rs results hbad
    exact ⟨ReformatSQLException e, by rw [hthrown, he]; rfl, rfl⟩

theorem InnerGetTracks_rows_witness :
    (∃ added : List Row,
      (InnerGetTracks (constStore [untitledRow, titledRow]) sampleColumns [] "q").results
        = [] ++ added ∧
      (InnerGetTracks (constStore [untitledRow, titledRow]) sampleColumns [] "q").thrown
        = none ∧
      added.length = [untitledRow, titledRow].length ∧
      ∀ (i : Nat) (r : ResultRow) (row : Row),
        [untitledRow, titledRow][i]? = some r → added[i]? = some row →
          row.type = some RowKind.ROW ∧
          StrMap.find row.results "type" = some "track" ∧
          (∀ v, r.getString "id" = .ok v → StrMap.find row.results "id" = some v) ∧
          ∀ c ∈ sampleColumns, c ≠ "type" → ∀ v, r.getString c = .ok v →
            ((c ≠ "title" ∨ v ≠ "") → StrMap.find row.results c = some v) ∧
            (c = "title" → v = "" →
              ∃ f, StrMap.find row.results "fname" = some f ∧
                StrMap.find row.results "title" = some f)) ∧
    (∃ ex, (InnerGetTracks (constStore [titledRow, shortRow]) sampleColumns [] "q").thrown
        = some ex ∧ ex.level = LogLevel.FATAL) :=
  ⟨(InnerGetTracks_rows (constStore [untitledRow, titledRow]) sampleColumns [] "q"
      [untitledRow, titledRow] rfl rfl).1 worked_rows_readable,
   (InnerGetTracks_rows (constStore [titledRow, shortRow]) sampleColumns [] "q"
      [titledRow, shortRow] rfl rfl).2
      ⟨shortRow, by simp, "fname", by decide, invalidColumn "fname", rfl⟩⟩

end pas
